import Mathlib

/-!
Verification of the telegram_listener_service repository
(`server.py`, `listener_worker.py`) against its natural-language
specification, via a shallow embedding of the relevant code paths.
-/

namespace TelegramListener

/-! ## Message records and the Message Sink (listener_worker.py) -/

/-- A captured message record, as built by `handler` in
`listener_worker.py` (lines 109-114): `{timestamp, text, chat_id, message_id}`. -/
structure Record where
  timestamp : String
  text : String
  chat_id : Int
  message_id : Int
deriving DecidableEq, Repr

/-- The dedup key of a record: the `(chat_id, message_id)` pair
(`key = (cid, mid)`, listener_worker.py line 105). -/
def key (r : Record) : Int × Int := (r.chat_id, r.message_id)

/-- The in-memory sink state of one listener task: the `collected` list
(aliasing `existing`, listener_worker.py line 88) and the `seen` dedup-key
set (line 75; modelled as a list, only membership is ever used). -/
structure SinkState where
  collected : List Record
  seen : List (Int × Int)
deriving DecidableEq, Repr

/-- The sink state for an account with no prior data
(`existing = []`, `seen = set()`, listener_worker.py lines 74-75). -/
def sinkInit : SinkState := ⟨[], []⟩

/-- The success path of `handler` (listener_worker.py lines 100-119):
if the key is already in `seen`, return without touching anything;
otherwise append the record to `collected`, add the key to `seen`,
and persist. -/
def handler (st : SinkState) (rec : Record) : SinkState :=
  if key rec ∈ st.seen then st
  else { collected := st.collected ++ [rec], seen := key rec :: st.seen }

/-- A sequence of `handler` invocations, one per delivered event. -/
def appendAll (st : SinkState) (msgs : List Record) : SinkState :=
  msgs.foldl handler st

/-- Specification helper: the records of `msgs` that survive dedup against
an ambient `seen` set, keeping the first occurrence of each key. -/
def newRecs (seen : List (Int × Int)) : List Record → List Record
  | [] => []
  | r :: rs =>
    if key r ∈ seen then newRecs seen rs
    else r :: newRecs (key r :: seen) rs

/-- Specification helper: the `seen` set after processing `msgs`. -/
def newKeys (seen : List (Int × Int)) : List Record → List (Int × Int)
  | [] => seen
  | r :: rs =>
    if key r ∈ seen then newKeys seen rs
    else newKeys (key r :: seen) rs

theorem handler_mem (st : SinkState) (rec : Record) (h : key rec ∈ st.seen) :
    handler st rec = st := by
  simp [handler, h]

theorem handler_not_mem (st : SinkState) (rec : Record) (h : key rec ∉ st.seen) :
    handler st rec = ⟨st.collected ++ [rec], key rec :: st.seen⟩ := by
  simp [handler, h]

theorem appendAll_eq (msgs : List Record) :
    ∀ st : SinkState,
      appendAll st msgs = ⟨st.collected ++ newRecs st.seen msgs, newKeys st.seen msgs⟩ := by
  induction msgs with
  | nil => intro st; simp [appendAll, newRecs, newKeys]
  | cons r rs ih =>
    intro st
    have hstep : appendAll st (r :: rs) = appendAll (handler st r) rs := by
      simp [appendAll]
    by_cases h : key r ∈ st.seen
    · rw [hstep, handler_mem st r h, ih st]
      simp [newRecs, newKeys, h]
    · rw [hstep, handler_not_mem st r h, ih ⟨st.collected ++ [r], key r :: st.seen⟩]
      simp [newRecs, newKeys, h, List.append_assoc]

theorem newRecs_countP (k : Int × Int) (msgs : List Record) :
    ∀ seen : List (Int × Int),
      (newRecs seen msgs).countP (fun r => key r == k) =
        if k ∉ seen ∧ k ∈ msgs.map key then 1 else 0 := by
  induction msgs with
  | nil => intro seen; simp [newRecs]
  | cons m ms ih =>
    intro seen
    by_cases hm : key m ∈ seen
    · rw [newRecs, if_pos hm, ih seen]
      by_cases hk : k ∈ seen
      · simp [hk]
      · have hne : k ≠ key m := fun h => hk (h ▸ hm)
        simp [hk, hne, Ne.symm hne]
    · rw [newRecs, if_neg hm]
      rw [List.countP_cons, ih (key m :: seen)]
      by_cases hk : k = key m
      · subst hk
        simp [hm]
      · have : (key m == k) = false := by
          simp [Ne.symm hk]
        simp only [this, List.mem_cons, List.map_cons]
        by_cases hks : k ∈ seen
        · simp [hks]
        · simp [hks, hk, Ne.symm hk]

theorem newRecs_first (msgs : List Record) :
    ∀ (seen : List (Int × Int)) (r : Record), r ∈ newRecs seen msgs →
      key r ∉ seen ∧ msgs.find? (fun m => key m == key r) = some r := by
  induction msgs with
  | nil => intro seen r hr; simp [newRecs] at hr
  | cons m ms ih =>
    intro seen r hr
    by_cases hm : key m ∈ seen
    · rw [newRecs, if_pos hm] at hr
      obtain ⟨hns, hfind⟩ := ih seen r hr
      have hne : (key m == key r) = false := by
        simp only [beq_eq_false_iff_ne, ne_eq]
        intro h
        exact hns (h ▸ hm)
      refine ⟨hns, ?_⟩
      rw [List.find?_cons_of_neg _ (by simp [hne]), hfind]
    · rw [newRecs, if_neg hm] at hr
      rcases List.mem_cons.mp hr with hr | hr
      · subst hr
        refine ⟨hm, ?_⟩
        rw [List.find?_cons_of_pos _ (by simp)]
      · obtain ⟨hns, hfind⟩ := ih (key m :: seen) r hr
        have hnem : key r ≠ key m := fun h => hns (by simp [h])
        have hns' : key r ∉ seen := fun h => hns (by simp [h])
        refine ⟨hns', ?_⟩
        rw [List.find?_cons_of_neg _ (by simp [Ne.symm hnem]), hfind]

theorem newRecs_sublist (msgs : List Record) :
    ∀ seen : List (Int × Int), (newRecs seen msgs).Sublist msgs := by
  induction msgs with
  | nil => intro seen; simp [newRecs]
  | cons m ms ih =>
    intro seen
    by_cases hm : key m ∈ seen
    · rw [newRecs, if_pos hm]
      exact List.Sublist.cons m (ih seen)
    · rw [newRecs, if_neg hm]
      exact List.Sublist.cons₂ m (ih (key m :: seen))

/-- C1: Append to the message sink is idempotent under the dedup key:
over any sequence of `handler` calls for one account, the resulting log
contains each unique `(chatId, messageId)` pair exactly once, the record
retained for each pair is the first one appended with that pair (hence its
text and timestamp), and a `handler` call whose key is already present
leaves the state untouched. -/
theorem append_idempotent_dedup (msgs : List Record) :
    (∀ k : Int × Int,
        ((appendAll sinkInit msgs).collected.countP (fun r => key r == k)) =
          if k ∈ msgs.map key then 1 else 0)
    ∧ (∀ r ∈ (appendAll sinkInit msgs).collected,
        msgs.find? (fun m => key m == key r) = some r)
    ∧ (∀ (st : SinkState) (rec : Record), key rec ∈ st.seen → handler st rec = st) := by
  refine ⟨?_, ?_, handler_mem⟩
  · intro k
    rw [appendAll_eq]
    simp only [sinkInit, List.nil_append]
    rw [newRecs_countP k msgs []]
    simp
  · intro r hr
    rw [appendAll_eq] at hr
    simp only [sinkInit, List.nil_append] at hr
    exact (newRecs_first msgs [] r hr).2

/-- Witness for C1 at a concrete duplicated sequence: two appends with the
same key `(111, 1)` leave exactly one record, the first one. -/
theorem append_idempotent_dedup_witness :
    ((appendAll sinkInit
        [⟨"2024-01-01T00:00:00", "first", 111, 1⟩,
         ⟨"2024-01-01T00:00:05", "second", 111, 1⟩]).collected.countP
      (fun r => key r == ((111 : Int), (1 : Int)))) = 1
    ∧ ([⟨"2024-01-01T00:00:00", "first", 111, 1⟩,
        ⟨"2024-01-01T00:00:05", "second", 111, 1⟩] : List Record).find?
        (fun m => key m == key (⟨"2024-01-01T00:00:00", "first", 111, 1⟩ : Record)) =
        some ⟨"2024-01-01T00:00:00", "first", 111, 1⟩
    ∧ handler ⟨[⟨"2024-01-01T00:00:00", "first", 111, 1⟩], [(111, 1)]⟩
        ⟨"2024-01-01T00:00:05", "second", 111, 1⟩ =
        ⟨[⟨"2024-01-01T00:00:00", "first", 111, 1⟩], [(111, 1)]⟩ := by
  refine ⟨?_, ?_, ?_⟩
  · have h := (append_idempotent_dedup
      [⟨"2024-01-01T00:00:00", "first", 111, 1⟩,
       ⟨"2024-01-01T00:00:05", "second", 111, 1⟩]).1 ((111 : Int), (1 : Int))
    rw [h]
    decide
  · exact (append_idempotent_dedup
      [⟨"2024-01-01T00:00:00", "first", 111, 1⟩,
       ⟨"2024-01-01T00:00:05", "second", 111, 1⟩]).2.1
      ⟨"2024-01-01T00:00:00", "first", 111, 1⟩ (by decide)
  · exact (append_idempotent_dedup []).2.2
      ⟨[⟨"2024-01-01T00:00:00", "first", 111, 1⟩], [(111, 1)]⟩
      ⟨"2024-01-01T00:00:05", "second", 111, 1⟩ (by decide)

/-! ## Memory/disk interaction of the handler (C4) -/

/-- The handler's memory together with the persisted on-disk log for the
same account. -/
structure SinkDisk where
  mem : SinkState
  disk : List Record
deriving DecidableEq, Repr

/-- `handler` (listener_worker.py lines 100-124) with the outcome of the
persistence call made explicit. In the source the in-memory mutations
`collected.append(rec)` and `seen.add(key)` (lines 117-118) happen before
`_atomic_write_json` (line 119); an exception raised by the write is
caught by the `except` clause at line 123 and merely logged, after memory
was already mutated. `writeOk = false` models a failing write: memory
keeps the mutation, disk keeps its previous content. -/
def handlerWrite (st : SinkDisk) (rec : Record) (writeOk : Bool) : SinkDisk :=
  if key rec ∈ st.mem.seen then st
  else
    let mem' : SinkState := ⟨st.mem.collected ++ [rec], key rec :: st.mem.seen⟩
    { mem := mem', disk := if writeOk then mem'.collected else st.disk }

/-! ## Atomic file replacement (C5): `_atomic_write_json` and `save_db` -/

/-- A flat file system: file name to content (`none` = file absent). -/
def Fs : Type := String → Option String

/-- Point update of a file system. -/
def Fs.update (fs : Fs) (name : String) (content : Option String) : Fs :=
  fun n => if n = name then content else fs n

/-- The temp-file name: `path.with_suffix(path.suffix + ".tmp")`
(listener_worker.py line 17, server.py line 36) appends `".tmp"` to the
file's full name. -/
def tmpName (path : String) : String := path ++ ".tmp"

/-- `os.replace`-style rename (`tmp.replace(path)`): atomic; the target
takes the source's content and the source disappears. -/
def Fs.rename (fs : Fs) (src dst : String) : Fs :=
  fun n => if n = dst then fs src else if n = src then none else fs n

/-- The completed write sequence shared by `_atomic_write_json`
(listener_worker.py lines 15-19) and `save_db` (server.py lines 35-38):
write the serialized content to the temp name, then rename the temp file
over the target. -/
def atomicReplace (fs : Fs) (path content : String) : Fs :=
  (fs.update (tmpName path) (some content)).rename (tmpName path) path

/-- The points at which the process may crash during an atomic replace:
before anything happened, in the middle of writing the temp file (leaving
arbitrary partial bytes `written` there), after the temp write completed
but before the rename, or after the rename. -/
inductive CrashPoint
  | beforeAll
  | midWrite (written : String)
  | afterWrite
  | done
deriving DecidableEq, Repr

/-- The file system observed on restart when the process crashed at `cp`
during `_atomic_write_json fs path content` / `save_db`. The rename step
is atomic, so no intermediate state of the target file exists. -/
def atomicReplaceCrash (fs : Fs) (path content : String) : CrashPoint → Fs
  | .beforeAll => fs
  | .midWrite written => fs.update (tmpName path) (some written)
  | .afterWrite => fs.update (tmpName path) (some content)
  | .done => atomicReplace fs path content

/-- `_atomic_write_json` (listener_worker.py lines 15-19): the run that
completes. -/
def _atomic_write_json (fs : Fs) (path content : String) : Fs :=
  atomicReplaceCrash fs path content .done

/-- `save_db` (server.py lines 35-38): identical write discipline, on the
Store's `database.json`. -/
def save_db (fs : Fs) (path content : String) : Fs :=
  atomicReplaceCrash fs path content .done

theorem tmpName_ne (path : String) : tmpName path ≠ path := by
  intro h
  have hlen := congrArg String.length h
  rw [tmpName, String.length_append] at hlen
  have h4 : (".tmp" : String).length = 4 := rfl
  omega

/-! ## Retrieval: `get_data` (server.py lines 216-224) -/

/-- The observable state of one account's data file, matching the three
branches of `get_data`: the file does not exist, it exists but
`json.loads` raises, or it parses to a list of records. -/
inductive FileState
  | missing
  | corrupt
  | ok (records : List Record)
deriving DecidableEq, Repr

/-- `get_data` (server.py lines 216-224): `[]` when the file is missing,
`[]` when reading/parsing raises, otherwise the parsed content. -/
def get_data : FileState → List Record
  | .missing => []
  | .corrupt => []
  | .ok l => l

/-! ## Group references and normalization
(server.py lines 163-169, listener_worker.py lines 46-52) -/

/-- A group reference as received in the request body
(`groups: List[Union[int, str]]`, server.py line 55). -/
inductive GroupRef
  | int (n : Int)
  | str (s : String)
deriving DecidableEq, Repr

/-- Python `int(s)` on a string, as used by the normalization loops:
strips surrounding whitespace, accepts an optional single sign followed by
one or more decimal digits; anything else raises (here: `none`).
(Underscore digit grouping, also accepted by Python, is not modelled; the
normalization loops below are insensitive to which strings parse.) -/
def pyIntStr (s : String) : Option Int :=
  let t := s.trim
  let core := if t.startsWith "-" || t.startsWith "+" then t.drop 1 else t
  if core.length > 0 && core.all Char.isDigit then
    let n : Nat := core.foldl (fun acc c => acc * 10 + (c.toNat - 48)) 0
    some (if t.startsWith "-" then -(n : Int) else (n : Int))
  else none

/-- `int(g)` applied to a request group reference (an `int` converts to
itself; a string goes through Python string parsing). -/
def pyInt : GroupRef → Option Int
  | .int n => some n
  | .str s => pyIntStr s

/-- The normalization loop (server.py lines 164-169, and identically
listener_worker.py lines 47-52): `try: norm.append(int(g)) except: pass`
over the request's groups, in order. Unparseable references are skipped
silently. -/
def normGroups : List GroupRef → List Int
  | [] => []
  | g :: gs =>
    match pyInt g with
    | some n => n :: normGroups gs
    | none => normGroups gs

/-! ## Group resolution at listener startup
(listener_worker.py lines 54-70) -/

/-- The outcome of the resolution loop, instrumented with the trace of
individual per-reference backend resolution calls (such as
`client.get_entity`) the loop performs. The source loop (lines 62-70)
looks each id up in the bulk dialog index `by_id` and either keeps the
entity or logs a warning and drops the id; it contains no individual
resolution call, so `individualCalls` is always empty. Entities are
abstracted to their ids (the only field the embedding needs). -/
structure ResolveOutcome where
  resolved : List Int
  dropped : List Int
  individualCalls : List Int
deriving DecidableEq, Repr

/-- The resolution loop over the normalized ids, against the bulk dialog
index `byId` built from the single `client.get_dialogs` call (lines
55-60). -/
def resolveGroups (byId : List Int) : List Int → ResolveOutcome
  | [] => ⟨[], [], []⟩
  | gid :: rest =>
    let r := resolveGroups byId rest
    if gid ∈ byId then ⟨gid :: r.resolved, r.dropped, r.individualCalls⟩
    else ⟨r.resolved, gid :: r.dropped, r.individualCalls⟩

/-! ## The listener task outcome (listener_worker.py `start_user_listener`) -/

/-- Where `start_user_listener` ends up after its startup phase:
`notAuthorized` — returned early at line 41; `idle` — zero resolved
groups, no handler attached, the task holds the connection open via
`run_until_disconnected` until cancelled (lines 90-94); `listening` —
handler attached for the resolved chats (lines 96-126). -/
inductive ListenerOutcome
  | notAuthorized
  | idle
  | listening (resolved : List Int)
deriving DecidableEq, Repr

/-- The startup phase of `start_user_listener` (listener_worker.py lines
22-99): authorization check, normalization, bulk-index resolution, then
either idle or listening. The dialog index is passed in as the result of
the `get_dialogs` call. -/
def start_user_listener (authorized : Bool) (dialogIndex : List Int)
    (groups : List GroupRef) : ListenerOutcome :=
  if !authorized then .notAuthorized
  else
    let res := (resolveGroups dialogIndex (normGroups groups)).resolved
    if res.isEmpty then .idle
    else .listening res

/-- The chats a listener outcome is subscribed to
(`events.NewMessage(chats=resolved)` only in the listening state). -/
def subscriptions : ListenerOutcome → List Int
  | .listening res => res
  | _ => []

/-- Whether a message handler was attached (`@client.on(...)` is only
reached in the listening state). -/
def handlerAttached : ListenerOutcome → Bool
  | .listening _ => true
  | _ => false

/-- Event delivery: only a listening task has a handler, and
`events.NewMessage(chats=resolved)` delivers only events from the
subscribed chats; every delivered event goes through `handler`. In any
other state the sink is untouched. -/
def runEvents (o : ListenerOutcome) (st : SinkState) (events : List Record) :
    SinkState :=
  match o with
  | .listening res => appendAll st (events.filter (fun e => e.chat_id ∈ res))
  | _ => st

/-! ## The Store and the Listener Registry (server.py) -/

/-- One account's record in `database.json`
(`{api_id, api_hash, session_string, groups}`, server.py line 20); any
field may be absent. -/
structure Conf where
  api_id : Option Int
  api_hash : Option String
  session_string : Option String
  groups : Option (List Int)
deriving DecidableEq, Repr

/-- The parsed `database.json`: phone → record. -/
abbrev Db := List (String × Conf)

/-- Update/insert one account's record (mutating `db[phone]` then
`save_db(db)`). -/
def dbSet (db : Db) (phone : String) (c : Conf) : Db :=
  (phone, c) :: db.eraseP (fun p => p.1 == phone)

/-- The check at server.py line 160: `not conf or not
conf.get("session_string")` — the record must exist and hold a non-empty
session string (Python truthiness: `None` and `""` are falsy). -/
def hasSessionString (c : Conf) : Bool :=
  match c.session_string with
  | none => false
  | some s => !s.isEmpty

/-- A registered listener task: whether it is still alive
(`not t.done() and not t.cancelled()`) and the group list it was started
with. -/
inductive TaskStatus
  | running
  | taskDone
  | taskCancelled
deriving DecidableEq, Repr

structure TaskInfo where
  status : TaskStatus
  taskGroups : List Int
deriving DecidableEq, Repr

/-- `t and not t.done() and not t.cancelled()` (server.py lines 178, 182). -/
def TaskInfo.alive (t : TaskInfo) : Bool := t.status == .running

/-- The server's state: the Store (`database.json` content) and the
in-memory `LISTENERS` task map (server.py line 22). -/
structure ServerState where
  db : Db
  listeners : List (String × TaskInfo)
deriving DecidableEq, Repr

/-- What a `/start_listener` call returns and does, instrumented with the
number of tasks created and whether a prior task was cancelled. -/
inductive StartStatus
  | noSession
  | alreadyRunning
  | started
deriving DecidableEq, Repr

structure StartResult where
  state : ServerState
  status : StartStatus
  tasksCreated : Nat
  cancelledOld : Bool
deriving DecidableEq, Repr

/-- `start_listener` (server.py lines 152-198) as a state transformer:
1. load the account record; fail with HTTP 400 (`noSession`) when it is
   absent or has no truthy `session_string` (lines 158-161);
2. normalize the requested groups to ints, silently skipping the rest
   (lines 163-169);
3. read the prior persisted groups (`conf.get("groups", [])`), overwrite
   with the normalized list, persist via `save_db` (lines 171-174);
4. if a live task exists and the prior group list equals the normalized
   list (Python `==` on lists: order- and multiplicity-sensitive), return
   `already_running` (lines 177-179);
5. otherwise cancel a live prior task if any (lines 182-187), create a
   new task with the normalized groups and record it (lines 189-198). -/
def start_listener (st : ServerState) (phone : String) (groups : List GroupRef) :
    StartResult :=
  match st.db.lookup phone with
  | none => ⟨st, .noSession, 0, false⟩
  | some conf =>
    if hasSessionString conf then
      let norm := normGroups groups
      let prior := conf.groups.getD []
      let db' := dbSet st.db phone { conf with groups := some norm }
      match st.listeners.lookup phone with
      | some ti =>
        if ti.alive && prior == norm then
          ⟨⟨db', st.listeners⟩, .alreadyRunning, 0, false⟩
        else
          ⟨⟨db', (phone, ⟨.running, norm⟩) :: st.listeners.eraseP (fun p => p.1 == phone)⟩,
            .started, 1, ti.alive⟩
      | none =>
        ⟨⟨db', (phone, ⟨.running, norm⟩) :: st.listeners.eraseP (fun p => p.1 == phone)⟩,
          .started, 1, false⟩
    else ⟨st, .noSession, 0, false⟩

/-! ## Shared lemmas about the registry -/

theorem dbSet_lookup (db : Db) (phone : String) (c : Conf) :
    (dbSet db phone c).lookup phone = some c := by
  simp [dbSet, List.lookup]

theorem lookup_cons_self {β : Type} (k : String) (b : β) (l : List (String × β)) :
    ((k, b) :: l).lookup k = some b := by
  simp [List.lookup]

theorem start_listener_of_no_conf (st : ServerState) (phone : String)
    (groups : List GroupRef) (h : st.db.lookup phone = none) :
    start_listener st phone groups = ⟨st, .noSession, 0, false⟩ := by
  simp [start_listener, h]

theorem start_listener_of_no_session (st : ServerState) (phone : String)
    (groups : List GroupRef) (conf : Conf) (hconf : st.db.lookup phone = some conf)
    (hsess : hasSessionString conf = false) :
    start_listener st phone groups = ⟨st, .noSession, 0, false⟩ := by
  simp [start_listener, hconf, hsess]

theorem start_listener_db (st : ServerState) (phone : String) (groups : List GroupRef)
    (conf : Conf) (hconf : st.db.lookup phone = some conf)
    (hsess : hasSessionString conf = true) :
    (start_listener st phone groups).state.db
      = dbSet st.db phone { conf with groups := some (normGroups groups) } := by
  simp only [start_listener, hconf, hsess, if_true]
  cases h : st.listeners.lookup phone with
  | none => simp
  | some ti =>
    by_cases hb : (ti.alive && conf.groups.getD [] == normGroups groups) = true
    · simp [hb]
    · simp [hb]

theorem start_listener_status_or (st : ServerState) (phone : String)
    (groups : List GroupRef) (conf : Conf) (hconf : st.db.lookup phone = some conf)
    (hsess : hasSessionString conf = true) :
    (start_listener st phone groups).status = .alreadyRunning
      ∨ (start_listener st phone groups).status = .started := by
  simp only [start_listener, hconf, hsess, if_true]
  cases h : st.listeners.lookup phone with
  | none => simp
  | some ti =>
    by_cases hb : (ti.alive && conf.groups.getD [] == normGroups groups) = true
    · simp [hb]
    · simp [hb]

theorem start_listener_already (st : ServerState) (phone : String)
    (groups : List GroupRef) (conf : Conf) (ti : TaskInfo)
    (hconf : st.db.lookup phone = some conf) (hsess : hasSessionString conf = true)
    (ht : st.listeners.lookup phone = some ti) (halive : ti.alive = true)
    (hprior : conf.groups.getD [] = normGroups groups) :
    start_listener st phone groups =
      ⟨⟨dbSet st.db phone { conf with groups := some (normGroups groups) },
        st.listeners⟩, .alreadyRunning, 0, false⟩ := by
  simp [start_listener, hconf, hsess, ht, halive, hprior]

theorem start_listener_started_listeners (st : ServerState) (phone : String)
    (groups : List GroupRef) (h : (start_listener st phone groups).status = .started) :
    (start_listener st phone groups).state.listeners
      = (phone, ⟨.running, normGroups groups⟩)
          :: st.listeners.eraseP (fun p => p.1 == phone) := by
  cases hconf : st.db.lookup phone with
  | none => rw [start_listener_of_no_conf st phone groups hconf] at h; exact absurd h (by simp)
  | some conf =>
    by_cases hsess : hasSessionString conf = true
    · simp only [start_listener, hconf, hsess, if_true] at h ⊢
      cases ht : st.listeners.lookup phone with
      | none => simp
      | some ti =>
        by_cases hb : (ti.alive && conf.groups.getD [] == normGroups groups) = true
        · simp [ht, hb] at h
        · simp [ht, hb]
    · rw [start_listener_of_no_session st phone groups conf hconf
        (by simpa using hsess)] at h
      exact absurd h (by simp)

theorem hasSessionString_set_groups (conf : Conf) (g : Option (List Int)) :
    hasSessionString { conf with groups := g } = hasSessionString conf := by
  simp [hasSessionString]

/-! ## C2: idempotent start -/

/-- C2 counterexample: the last-started group list `[1, 2]` and the
requested list `[2, 1]` are equal as sets (indeed permutations of each
other), a live task is registered for the account, yet `start_listener`
restarts: it returns `started` and creates a new task, because server.py
line 178 compares `prior_groups == norm_groups` as Python lists,
order-sensitively. -/
theorem start_set_idempotence_counterexample :
    ([1, 2] : List Int).toFinset = ([2, 1] : List Int).toFinset
    ∧ (ServerState.listeners
        ⟨[("p", ⟨some 1, some "h", some "sess", some [1, 2]⟩)],
         [("p", ⟨.running, [1, 2]⟩)]⟩).lookup "p" = some ⟨.running, [1, 2]⟩
    ∧ TaskInfo.alive ⟨.running, [1, 2]⟩ = true
    ∧ (start_listener
        ⟨[("p", ⟨some 1, some "h", some "sess", some [1, 2]⟩)],
         [("p", ⟨.running, [1, 2]⟩)]⟩ "p" [.int 2, .int 1]).status = .started
    ∧ (start_listener
        ⟨[("p", ⟨some 1, some "h", some "sess", some [1, 2]⟩)],
         [("p", ⟨.running, [1, 2]⟩)]⟩ "p" [.int 2, .int 1]).tasksCreated = 1 := by
  refine ⟨by decide, by decide, by decide, by decide, by decide⟩

/-- C2 (amended): start is idempotent under *list* equality of the
normalized groups (order- and multiplicity-sensitive), not set equality:
if a live task exists and the persisted prior group list equals the
normalized requested list, start returns `already_running`, creates no
task, cancels nothing and leaves the task map untouched; and a second
start with the identical request directly after a `started` one returns
`already_running` and creates no further task. -/
theorem start_idempotent :
    (∀ (st : ServerState) (phone : String) (groups : List GroupRef)
        (conf : Conf) (ti : TaskInfo),
        st.db.lookup phone = some conf → hasSessionString conf = true →
        st.listeners.lookup phone = some ti → ti.alive = true →
        conf.groups.getD [] = normGroups groups →
        (start_listener st phone groups).status = .alreadyRunning
        ∧ (start_listener st phone groups).tasksCreated = 0
        ∧ (start_listener st phone groups).cancelledOld = false
        ∧ (start_listener st phone groups).state.listeners = st.listeners)
    ∧ (∀ (st : ServerState) (phone : String) (groups : List GroupRef),
        (start_listener st phone groups).status = .started →
        (start_listener (start_listener st phone groups).state phone groups).status
          = .alreadyRunning
        ∧ (start_listener (start_listener st phone groups).state phone groups).tasksCreated
          = 0) := by
  constructor
  · intro st phone groups conf ti hconf hsess ht halive hprior
    rw [start_listener_already st phone groups conf ti hconf hsess ht halive hprior]
    exact ⟨rfl, rfl, rfl, rfl⟩
  · intro st phone groups h
    cases hconf : st.db.lookup phone with
    | none =>
      rw [start_listener_of_no_conf st phone groups hconf] at h
      exact absurd h (by simp)
    | some conf =>
      by_cases hsess : hasSessionString conf = true
      · have hdb := start_listener_db st phone groups conf hconf hsess
        have hls := start_listener_started_listeners st phone groups h
        have hconf' : (start_listener st phone groups).state.db.lookup phone
            = some { conf with groups := some (normGroups groups) } := by
          rw [hdb]; exact dbSet_lookup _ _ _
        have hsess' : hasSessionString { conf with groups := some (normGroups groups) }
            = true := by rw [hasSessionString_set_groups]; exact hsess
        have ht' : (start_listener st phone groups).state.listeners.lookup phone
            = some ⟨.running, normGroups groups⟩ := by
          rw [hls]; exact lookup_cons_self _ _ _
        have halive' : TaskInfo.alive ⟨.running, normGroups groups⟩ = true := rfl
        have hprior' : ({ conf with groups := some (normGroups groups) } : Conf).groups.getD []
            = normGroups groups := rfl
        rw [start_listener_already _ phone groups _ _ hconf' hsess' ht' halive' hprior']
        exact ⟨rfl, rfl⟩
      · rw [start_listener_of_no_session st phone groups conf hconf
          (by simpa using hsess)] at h
        exact absurd h (by simp)

/-- Witness for C2: a concrete account with a live task on groups `[9]`
and a repeated identical request yields `already_running` and no new
task; and a fresh start followed by the identical start creates exactly
one task. -/
theorem start_idempotent_witness :
    ((start_listener
        ⟨[("p", ⟨some 1, some "h", some "sess", some [9]⟩)],
         [("p", ⟨.running, [9]⟩)]⟩ "p" [.int 9]).status = .alreadyRunning
      ∧ (start_listener
          ⟨[("p", ⟨some 1, some "h", some "sess", some [9]⟩)],
           [("p", ⟨.running, [9]⟩)]⟩ "p" [.int 9]).tasksCreated = 0)
    ∧ ((start_listener
          (start_listener ⟨[("q", ⟨some 1, some "h", some "s", none⟩)], []⟩
            "q" [.int 3]).state "q" [.int 3]).status = .alreadyRunning) := by
  constructor
  · have h := start_idempotent.1
      ⟨[("p", ⟨some 1, some "h", some "sess", some [9]⟩)], [("p", ⟨.running, [9]⟩)]⟩
      "p" [.int 9] ⟨some 1, some "h", some "sess", some [9]⟩ ⟨.running, [9]⟩
      (by decide) (by decide) (by decide) (by decide) (by decide)
    exact ⟨h.1, h.2.1⟩
  · exact (start_idempotent.2
      ⟨[("q", ⟨some 1, some "h", some "s", none⟩)], []⟩ "q" [.int 3] (by decide)).1

/-! ## C3: resolver fallback -/

/-- C3 counterexample: the reference `42` is absent from the bulk dialog
index, is dropped from the active set, and the resolution loop makes no
individual per-reference resolution call at all — the trace of such calls
is empty, so no fallback preceded the drop. -/
theorem resolver_fallback_counterexample :
    (42 : Int) ∈ (resolveGroups [] [42]).dropped
    ∧ (resolveGroups [] [42]).individualCalls = []
    ∧ (42 : Int) ∉ (resolveGroups [] [42]).individualCalls := by
  refine ⟨by decide, by decide, by decide⟩

/-- C3 (amended): the resolution loop resolves exactly the requested
references found in the bulk dialog index (in request order), drops every
reference not found there immediately with only a logged warning, and
never makes an individual per-reference resolution call. -/
theorem resolveGroups_no_individual_calls (byId ids : List Int) :
    (resolveGroups byId ids).individualCalls = []
    ∧ (resolveGroups byId ids).resolved = ids.filter (fun g => decide (g ∈ byId))
    ∧ (resolveGroups byId ids).dropped = ids.filter (fun g => decide (g ∉ byId)) := by
  induction ids with
  | nil => exact ⟨rfl, rfl, rfl⟩
  | cons g gs ih =>
    by_cases h : g ∈ byId
    · simp [resolveGroups, h, ih.1, ih.2.1, ih.2.2]
    · simp [resolveGroups, h, ih.1, ih.2.1, ih.2.2]

/-! ## C4: append vs. write failure -/

/-- C4 counterexample: an append whose persistence fails still mutates the
in-memory state — starting from the empty sink, a failed write leaves the
record in `collected` and its key in `seen` while the disk still holds the
old (empty) log, so memory and disk diverge. -/
theorem append_write_failure_counterexample :
    (handlerWrite ⟨sinkInit, []⟩ ⟨"2024-01-01T00:00:00", "hello", 1, 2⟩ false).mem
      ≠ sinkInit
    ∧ (handlerWrite ⟨sinkInit, []⟩ ⟨"2024-01-01T00:00:00", "hello", 1, 2⟩ false).mem.collected
      = [⟨"2024-01-01T00:00:00", "hello", 1, 2⟩]
    ∧ (handlerWrite ⟨sinkInit, []⟩ ⟨"2024-01-01T00:00:00", "hello", 1, 2⟩ false).disk
      = [] := by
  refine ⟨by decide, by decide, by decide⟩

/-- C4 (amended): on an append whose persistence fails, the in-memory
state IS updated — the record is appended to the cached log and its key
added to the dedup set before the failure is caught — while the on-disk
log is left unchanged, so memory and disk diverge until a later
successful write. -/
theorem handlerWrite_failure_memory_updated (st : SinkDisk) (rec : Record)
    (h : key rec ∉ st.mem.seen) :
    (handlerWrite st rec false).mem.collected = st.mem.collected ++ [rec]
    ∧ (handlerWrite st rec false).mem.seen = key rec :: st.mem.seen
    ∧ (handlerWrite st rec false).disk = st.disk := by
  simp [handlerWrite, h]

/-- Witness for C4 (amended) at a concrete fresh record and failing
write. -/
theorem handlerWrite_failure_memory_updated_witness :
    (handlerWrite ⟨⟨[], [(5, 5)]⟩, []⟩ ⟨"t0", "x", 1, 2⟩ false).mem.collected
      = [] ++ [⟨"t0", "x", 1, 2⟩]
    ∧ (handlerWrite ⟨⟨[], [(5, 5)]⟩, []⟩ ⟨"t0", "x", 1, 2⟩ false).mem.seen
      = key ⟨"t0", "x", 1, 2⟩ :: [(5, 5)]
    ∧ (handlerWrite ⟨⟨[], [(5, 5)]⟩, []⟩ ⟨"t0", "x", 1, 2⟩ false).disk = [] :=
  handlerWrite_failure_memory_updated ⟨⟨[], [(5, 5)]⟩, []⟩ ⟨"t0", "x", 1, 2⟩ (by decide)

/-! ## C5: crash-safe atomic replacement -/

/-- C5: every persistent write by the Store (`save_db`) and the Sink
(`_atomic_write_json`) goes through write-to-temp-then-rename, so at
every crash point the target file holds either its complete pre-write
content or the complete post-write content — never a partial state — and
a completed write leaves exactly the new content. -/
theorem atomic_write_crash_safe (fs : Fs) (path content : String) (cp : CrashPoint) :
    ((atomicReplaceCrash fs path content cp) path = fs path
      ∨ (atomicReplaceCrash fs path content cp) path = some content)
    ∧ _atomic_write_json fs path content path = some content
    ∧ save_db fs path content path = some content := by
  have hdone : atomicReplaceCrash fs path content .done path = some content := by
    simp [atomicReplaceCrash, atomicReplace, Fs.rename, Fs.update]
  refine ⟨?_, hdone, hdone⟩
  cases cp with
  | beforeAll => exact Or.inl rfl
  | midWrite written =>
    refine Or.inl ?_
    show Fs.update fs (tmpName path) (some written) path = fs path
    rw [Fs.update, if_neg (fun h => tmpName_ne path h.symm)]
  | afterWrite =>
    refine Or.inl ?_
    show Fs.update fs (tmpName path) (some content) path = fs path
    rw [Fs.update, if_neg (fun h => tmpName_ne path h.symm)]
  | done => exact Or.inr hdone

/-! ## C6: NoSession handling -/

/-- C6: a start request fails with the no-session error exactly when the
Store holds no record with a truthy session string for the account — so a
stored session token never triggers that failure — and in the failing
case the server state is returned untouched and no task is created. -/
theorem start_no_session (st : ServerState) (phone : String) (groups : List GroupRef) :
    ((start_listener st phone groups).status = .noSession ↔
      ∀ conf, st.db.lookup phone = some conf → hasSessionString conf = false)
    ∧ ((start_listener st phone groups).status = .noSession →
        (start_listener st phone groups).state = st
        ∧ (start_listener st phone groups).tasksCreated = 0) := by
  cases hconf : st.db.lookup phone with
  | none =>
    rw [start_listener_of_no_conf st phone groups hconf]
    exact ⟨⟨fun _ conf hc => absurd hc (by simp), fun _ => rfl⟩, fun _ => ⟨rfl, rfl⟩⟩
  | some conf =>
    by_cases hsess : hasSessionString conf = true
    · constructor
      · constructor
        · intro h
          rcases start_listener_status_or st phone groups conf hconf hsess with h' | h' <;>
            rw [h'] at h <;> exact absurd h (by simp)
        · intro hall
          have h1 := hall conf rfl
          rw [hsess] at h1
          exact absurd h1 (by simp)
      · intro h
        rcases start_listener_status_or st phone groups conf hconf hsess with h' | h' <;>
          rw [h'] at h <;> exact absurd h (by simp)
    · have hsessf : hasSessionString conf = false := by simpa using hsess
      rw [start_listener_of_no_session st phone groups conf hconf hsessf]
      refine ⟨⟨fun _ c hc => ?_, fun _ => rfl⟩, fun _ => ⟨rfl, rfl⟩⟩
      have hce := Option.some.inj hc
      subst hce
      exact hsessf

/-- Witness for C6: with an empty Store the request fails with the
no-session error and leaves the state untouched; with a stored session
the status is not the no-session error. -/
theorem start_no_session_witness :
    ((start_listener ⟨[], []⟩ "p" []).state = ⟨[], []⟩
      ∧ (start_listener ⟨[], []⟩ "p" []).tasksCreated = 0)
    ∧ (start_listener ⟨[("q", ⟨some 1, some "h", some "s", none⟩)], []⟩ "q" []).status
        ≠ .noSession := by
  constructor
  · exact (start_no_session ⟨[], []⟩ "p" []).2 (by decide)
  · intro h
    have hfalse := ((start_no_session ⟨[("q", ⟨some 1, some "h", some "s", none⟩)], []⟩
      "q" []).1.mp h) ⟨some 1, some "h", some "s", none⟩ (by decide)
    exact absurd hfalse (by decide)

/-! ## C7: zero resolved groups is not a failure -/

/-- C7: when the authorization check passes and zero group references
resolve, the listener task does not fail: it reaches the idle listening
state (connection held open via `run_until_disconnected` until
cancellation), with no subscriptions, no handler attached, and no event
ever appends anything to the sink. -/
theorem zero_resolved_idle (authorized : Bool) (dialogIndex : List Int)
    (groups : List GroupRef) (hauth : authorized = true)
    (hres : (resolveGroups dialogIndex (normGroups groups)).resolved = []) :
    start_user_listener authorized dialogIndex groups = .idle
    ∧ subscriptions (start_user_listener authorized dialogIndex groups) = []
    ∧ handlerAttached (start_user_listener authorized dialogIndex groups) = false
    ∧ ∀ (st : SinkState) (events : List Record),
        runEvents (start_user_listener authorized dialogIndex groups) st events = st := by
  subst hauth
  have h1 : start_user_listener true dialogIndex groups = .idle := by
    simp [start_user_listener, hres]
  rw [h1]
  exact ⟨rfl, rfl, rfl, fun st events => rfl⟩

/-- Witness for C7: an authorized listener asked for group `5` with an
empty dialog index resolves nothing and idles; delivering an event in
that state appends nothing. -/
theorem zero_resolved_idle_witness :
    start_user_listener true [] [.int 5] = .idle
    ∧ subscriptions (start_user_listener true [] [.int 5]) = []
    ∧ runEvents (start_user_listener true [] [.int 5]) sinkInit [⟨"t", "x", 5, 1⟩]
        = sinkInit := by
  have h := zero_resolved_idle true [] [.int 5] rfl (by decide)
  exact ⟨h.1, h.2.1, h.2.2.2 sinkInit [⟨"t", "x", 5, 1⟩]⟩

/-! ## C8: unconditional persistence of the requested groups -/

/-- C8: every start request that passes the session check persists the
(normalized) requested groups into the account's Store record before
returning, in both the `already_running` and the `started` outcome — the
stored groups always reflect the latest requested start even when the
running listener is left untouched. -/
theorem start_persists_groups (st : ServerState) (phone : String)
    (groups : List GroupRef) (conf : Conf)
    (hconf : st.db.lookup phone = some conf) (hsess : hasSessionString conf = true) :
    (start_listener st phone groups).state.db.lookup phone
      = some { conf with groups := some (normGroups groups) }
    ∧ ((start_listener st phone groups).status = .alreadyRunning
        ∨ (start_listener st phone groups).status = .started) := by
  refine ⟨?_, start_listener_status_or st phone groups conf hconf hsess⟩
  rw [start_listener_db st phone groups conf hconf hsess]
  exact dbSet_lookup _ _ _

/-- Witness for C8: an `already_running` start (live task, unchanged
groups `[4]`) still rewrites the stored record's groups. -/
theorem start_persists_groups_witness :
    (start_listener
        ⟨[("p", ⟨some 1, some "h", some "sess", some [4]⟩)],
         [("p", ⟨.running, [4]⟩)]⟩ "p" [.int 4]).state.db.lookup "p"
      = some ⟨some 1, some "h", some "sess", some [4]⟩
    ∧ ((start_listener
          ⟨[("p", ⟨some 1, some "h", some "sess", some [4]⟩)],
           [("p", ⟨.running, [4]⟩)]⟩ "p" [.int 4]).status = .alreadyRunning
        ∨ (start_listener
            ⟨[("p", ⟨some 1, some "h", some "sess", some [4]⟩)],
             [("p", ⟨.running, [4]⟩)]⟩ "p" [.int 4]).status = .started) :=
  start_persists_groups
    ⟨[("p", ⟨some 1, some "h", some "sess", some [4]⟩)], [("p", ⟨.running, [4]⟩)]⟩
    "p" [.int 4] ⟨some 1, some "h", some "sess", some [4]⟩ (by decide) (by decide)

/-! ## C9: retrieval is total and keeps insertion order -/

/-- C9: `get_data` returns the account's log as stored (the sequence the
sink built, in insertion order — the persisted log is a subsequence of
the append sequence, first occurrences in order), and returns the empty
sequence rather than failing when the file is missing or its content is
unreadable or corrupt. -/
theorem get_data_ordered_total (l msgs : List Record) :
    get_data .missing = []
    ∧ get_data .corrupt = []
    ∧ get_data (.ok l) = l
    ∧ (get_data (.ok ((appendAll sinkInit msgs).collected))).Sublist msgs := by
  refine ⟨rfl, rfl, rfl, ?_⟩
  show (appendAll sinkInit msgs).collected.Sublist msgs
  rw [appendAll_eq]
  exact List.nil_append _ ▸ newRecs_sublist msgs []

/-! ## C10: silent normalization of group references -/

theorem normGroups_eq_filterMap (refs : List GroupRef) :
    normGroups refs = refs.filterMap pyInt := by
  induction refs with
  | nil => rfl
  | cons g gs ih =>
    cases h : pyInt g with
    | none => simp [normGroups, h, ih]
    | some n => simp [normGroups, h, ih]

theorem normGroups_map_int (l : List Int) : normGroups (l.map GroupRef.int) = l := by
  induction l with
  | nil => rfl
  | cons n ns ih => simp [normGroups, pyInt, ih]

theorem start_listener_norm_congr (st : ServerState) (phone : String)
    (g1 g2 : List GroupRef) (h : normGroups g1 = normGroups g2) :
    start_listener st phone g1 = start_listener st phone g2 := by
  simp only [start_listener, h]

/-- C10: group references that do not parse as integers are dropped
silently before anything else: normalization keeps exactly the
integer-parseable elements in request order; the whole start call behaves
identically to one made with only the parseable references; and a started
listener task receives exactly the normalized list (which is also what
C8's theorem shows gets persisted). No outcome of the call reports the
drop. -/
theorem normalization_silent_drop (st : ServerState) (phone : String)
    (refs : List GroupRef) :
    normGroups refs = refs.filterMap pyInt
    ∧ start_listener st phone refs
        = start_listener st phone ((refs.filterMap pyInt).map GroupRef.int)
    ∧ ((start_listener st phone refs).status = .started →
        (start_listener st phone refs).state.listeners.lookup phone
          = some ⟨.running, refs.filterMap pyInt⟩) := by
  refine ⟨normGroups_eq_filterMap refs, ?_, ?_⟩
  · exact start_listener_norm_congr st phone refs _
      (by rw [normGroups_map_int, normGroups_eq_filterMap])
  · intro h
    rw [start_listener_started_listeners st phone refs h, lookup_cons_self,
      normGroups_eq_filterMap]

/-- Witness for C10: a request mixing the unparseable alias `"abc"` with
parseable references behaves exactly like the request with the
unparseable one removed, and the started task gets only the parseable
ids. -/
theorem normalization_silent_drop_witness :
    normGroups [.str "abc", .int 7, .str "42"]
      = ([.str "abc", .int 7, .str "42"] : List GroupRef).filterMap pyInt
    ∧ start_listener ⟨[("q", ⟨some 1, some "h", some "s", none⟩)], []⟩ "q"
        [.str "abc", .int 7, .str "42"]
      = start_listener ⟨[("q", ⟨some 1, some "h", some "s", none⟩)], []⟩ "q"
          ((([.str "abc", .int 7, .str "42"] : List GroupRef).filterMap pyInt).map
            GroupRef.int)
    ∧ (start_listener ⟨[("q", ⟨some 1, some "h", some "s", none⟩)], []⟩ "q"
        [.str "abc", .int 7, .str "42"]).state.listeners.lookup "q"
      = some ⟨.running, ([.str "abc", .int 7, .str "42"] : List GroupRef).filterMap pyInt⟩ := by
  have h := normalization_silent_drop
    ⟨[("q", ⟨some 1, some "h", some "s", none⟩)], []⟩ "q" [.str "abc", .int 7, .str "42"]
  exact ⟨h.1, h.2.1, h.2.2 (by decide)⟩

end TelegramListener
